import Mathlib

/-!
Verification of the e-commerce storefront core (cart pricing, persistence,
catalog pagination state) against its specification.

JavaScript numbers are modelled as exact rationals (ℚ): the spec states its
arithmetic properties "within floating-point tolerance; exactly under exact
rational arithmetic", so the rational model is the intended semantics.
-/

namespace ECommerce

/-! ## JavaScript string primitives used by the source -/

/-- Source `String.prototype.toLowerCase()`, character by character (the categories
involved are ASCII, where this agrees with JS case mapping). -/
def jsToLowerCase (s : String) : String := String.mk (s.data.map Char.toLower)

/-- Source `String.prototype.trim()`: strip leading and trailing whitespace. -/
def jsTrim (s : String) : String :=
  String.mk (((s.data.dropWhile Char.isWhitespace).reverse.dropWhile
    Char.isWhitespace).reverse)

/-! ## Pricing utilities (src/utils/discountCalculator.ts, taxCalculator.ts) -/

/-- Source `calculateDiscount(price, discountPercentage)`:
`return (price * discountPercentage) / 100;` -/
def calculateDiscount (price discountPercentage : ℚ) : ℚ :=
  price * discountPercentage / 100

/-- Source `calculateTax(price, category)`:
`const taxRate = category.toLowerCase() === "groceries" ? 0.03 : 0.0475;`
`return price * taxRate;` -/
def calculateTax (price : ℚ) (category : String) : ℚ :=
  price * (if jsToLowerCase category = "groceries" then 3/100 else 475/10000)

/-! ## Product entity (src/models/Product.ts) -/

/-- The raw catalog record shape `IProduct` fed to the `Product` constructor. -/
structure ProductData where
  id : ℚ
  title : String
  description : String
  category : String
  price : ℚ
  discountPercentage : ℚ
  rating : ℚ
  stock : ℚ
  brand : String
  thumbnail : String
  images : List String
deriving DecidableEq

/-- The constructed `Product` entity (same fields; `brand` already defaulted). -/
structure Product where
  id : ℚ
  title : String
  description : String
  category : String
  price : ℚ
  discountPercentage : ℚ
  rating : ℚ
  stock : ℚ
  brand : String
  thumbnail : String
  images : List String
deriving DecidableEq

/-- The `Product` constructor: copies every field verbatim except `brand`,
which falls back to `"No Brand"` when falsy (`data.brand || "No Brand"`;
in the typed model the falsy string is `""`). -/
def Product.ofData (data : ProductData) : Product :=
  { id := data.id
    title := data.title
    description := data.description
    category := data.category
    price := data.price
    discountPercentage := data.discountPercentage
    rating := data.rating
    stock := data.stock
    brand := if data.brand = "" then "No Brand" else data.brand
    thumbnail := data.thumbnail
    images := data.images }

/-- The field projection used by `saveToStorage` when building the
`productData` snapshot (each field of the product, verbatim). -/
def Product.toData (p : Product) : ProductData :=
  { id := p.id
    title := p.title
    description := p.description
    category := p.category
    price := p.price
    discountPercentage := p.discountPercentage
    rating := p.rating
    stock := p.stock
    brand := p.brand
    thumbnail := p.thumbnail
    images := p.images }

/-- Source `Product.getPriceWithDiscount()`:
`const discountAmount = (this.price * this.discountPercentage) / 100;`
`return this.price - discountAmount;` -/
def Product.getPriceWithDiscount (p : Product) : ℚ :=
  p.price - (p.price * p.discountPercentage) / 100

/-! ## Cart engine (src/models/Cart.ts)

The cart's mutable `items` field is modelled as an explicit `List CartItem`
threaded through the operations. -/

/-- Source `CartItem`: a product with a quantity (a JS number). -/
structure CartItem where
  product : Product
  quantity : ℚ
deriving DecidableEq

/-- The predicate `item.product.id === productId` used by `find`/`filter`. -/
def matchesId (productId : ℚ) (item : CartItem) : Bool :=
  decide (item.product.id = productId)

/-- In-place mutation of the first element satisfying `p` (JS `find` returns a
reference that the caller then mutates; later elements are untouched). -/
def updateFirst (p : α → Bool) (f : α → α) : List α → List α
  | [] => []
  | x :: xs => if p x then f x :: xs else x :: updateFirst p f xs

/-- Source `Cart.addItem(product, quantity = 1)`: if `find` locates a line with the
same product id, `existingItem.quantity += quantity`; otherwise
`items.push({ product, quantity })`. (The `saveToStorage` side effect is
modelled separately by `Cart.saveToStorage`.) -/
def Cart.addItem (items : List CartItem) (product : Product) (quantity : ℚ) :
    List CartItem :=
  if items.any (matchesId product.id) then
    updateFirst (matchesId product.id)
      (fun item => { item with quantity := item.quantity + quantity }) items
  else
    items ++ [{ product := product, quantity := quantity }]

/-- Source `Cart.removeItem(productId)`:
`this.items = this.items.filter((item) => item.product.id !== productId);` -/
def Cart.removeItem (items : List CartItem) (productId : ℚ) : List CartItem :=
  items.filter (fun item => !matchesId productId item)

/-- Source `Cart.updateQuantity(productId, quantity)`: when `find` locates the line,
a non-positive quantity removes it and a positive one overwrites it;
when no line matches, the cart is unchanged. -/
def Cart.updateQuantity (items : List CartItem) (productId quantity : ℚ) :
    List CartItem :=
  if items.any (matchesId productId) then
    if quantity ≤ 0 then Cart.removeItem items productId
    else updateFirst (matchesId productId)
      (fun item => { item with quantity := quantity }) items
  else items

/-- Source `Cart.getItems()`: returns the items collection. -/
def Cart.getItems (items : List CartItem) : List CartItem := items

/-- Source `Cart.getItemCount()`: `reduce((total, item) => total + item.quantity, 0)`. -/
def Cart.getItemCount (items : List CartItem) : ℚ :=
  items.foldl (fun total item => total + item.quantity) 0

/-- Source `Cart.getSubtotal()`: sum of `getPriceWithDiscount() * quantity`. -/
def Cart.getSubtotal (items : List CartItem) : ℚ :=
  items.foldl
    (fun total item => total + item.product.getPriceWithDiscount * item.quantity) 0

/-- Source `Cart.getTotalTax()`: sum of
`calculateTax(priceAfterDiscount, category) * quantity`. -/
def Cart.getTotalTax (items : List CartItem) : ℚ :=
  items.foldl
    (fun total item =>
      total + calculateTax item.product.getPriceWithDiscount item.product.category
        * item.quantity) 0

/-- Source `Cart.getTotal()`: `getSubtotal() + getTotalTax()`. -/
def Cart.getTotal (items : List CartItem) : ℚ :=
  Cart.getSubtotal items + Cart.getTotalTax items

/-- Source `Cart.getTotalSavings()`: sum of
`(item.product.price * item.product.discountPercentage) / 100 * quantity`. -/
def Cart.getTotalSavings (items : List CartItem) : ℚ :=
  items.foldl
    (fun total item =>
      total + item.product.price * item.product.discountPercentage / 100
        * item.quantity) 0

/-- Source `Cart.clear()`: `this.items = [];`. -/
def Cart.clear : List CartItem := []

/-- Source `Cart.isEmpty()`: `this.items.length === 0`. -/
def Cart.isEmpty (items : List CartItem) : Bool :=
  decide (items.length = 0)

/-! ## localStorage persistence (Cart.saveToStorage / Cart.loadFromStorage)

The single storage slot `"ecommerce_cart"` is modelled at the JSON level:
`StorageVal.json j` stands for a stored string that `JSON.parse` turns into
the value `j`, `StorageVal.invalid` for a stored string `JSON.parse` rejects,
and `StorageVal.absent` for a missing key (`getItem` returning `null`; the
code's truthiness test treats the empty string the same way).
Exceptions thrown inside the `try` blocks are modelled with `Except`. -/

/-- JSON values, as produced by `JSON.parse`. -/
inductive Json where
  | null
  | bool (b : Bool)
  | num (q : ℚ)
  | str (s : String)
  | arr (elems : List Json)
  | obj (fields : List (String × Json))

/-- Contents of the storage slot. -/
inductive StorageVal where
  | absent
  | invalid
  | json (j : Json)

/-- The `productData` snapshot `saveToStorage` builds for one item
(every product field, verbatim). -/
def encodeProductData (p : Product) : Json :=
  .obj [("id", .num p.id), ("title", .str p.title),
        ("description", .str p.description), ("category", .str p.category),
        ("price", .num p.price),
        ("discountPercentage", .num p.discountPercentage),
        ("rating", .num p.rating), ("stock", .num p.stock),
        ("brand", .str p.brand), ("thumbnail", .str p.thumbnail),
        ("images", .arr (p.images.map Json.str))]

/-- One element of the serialized `cartData` array:
`{ productData: {...}, quantity: item.quantity }`. -/
def encodeCartItem (item : CartItem) : Json :=
  .obj [("productData", encodeProductData item.product),
        ("quantity", .num item.quantity)]

/-- Source `Cart.saveToStorage()`: the JSON value written to the slot,
`JSON.stringify(this.items.map(...))`. -/
def Cart.saveToStorage (items : List CartItem) : StorageVal :=
  .json (.arr (items.map encodeCartItem))

/-- JS property lookup on a parsed JSON object. -/
def lookupField (fields : List (String × Json)) (key : String) : Option Json :=
  (fields.find? (fun f => f.1 = key)).map (·.2)

/-- Read a field the `Product` constructor stores into a number-typed slot.
A missing or non-number value is rejected (JS instead stores the raw value
in the typed field; the typed model folds that corner into the error path,
which the surrounding `try`/`catch` turns into the same empty cart). -/
def asNum : Option Json → Except String ℚ
  | some (.num q) => .ok q
  | _ => .error "expected a number"

/-- Read a string-typed field (same convention as `asNum`). -/
def asStr : Option Json → Except String String
  | some (.str s) => .ok s
  | _ => .error "expected a string"

/-- Decode a JSON array of strings (the `images` field). -/
def decodeStrings : List Json → Except String (List String)
  | [] => .ok []
  | .str s :: rest => do
      let tail ← decodeStrings rest
      pure (s :: tail)
  | _ => .error "expected a string element"

/-- Read the `images` field. -/
def asStrList : Option Json → Except String (List String)
  | some (.arr elems) => decodeStrings elems
  | _ => .error "expected an array"

/-- Source `new Product(item.productData)` from a parsed record: reads every field of
the raw record, then applies the `Product` constructor (`Product.ofData`).
A `null`/missing/non-object `productData` throws in JS
(`item.productData.id` on a non-record) and is an error here. -/
def decodeProductData : Option Json → Except String ProductData
  | some (.obj fields) => do
      let id ← asNum (lookupField fields "id")
      let title ← asStr (lookupField fields "title")
      let description ← asStr (lookupField fields "description")
      let category ← asStr (lookupField fields "category")
      let price ← asNum (lookupField fields "price")
      let discountPercentage ← asNum (lookupField fields "discountPercentage")
      let rating ← asNum (lookupField fields "rating")
      let stock ← asNum (lookupField fields "stock")
      let brand ← asStr (lookupField fields "brand")
      let thumbnail ← asStr (lookupField fields "thumbnail")
      let images ← asStrList (lookupField fields "images")
      pure { id := id, title := title, description := description,
             category := category, price := price,
             discountPercentage := discountPercentage, rating := rating,
             stock := stock, brand := brand, thumbnail := thumbnail,
             images := images }
  | _ => .error "productData is not a record"

/-- One element of the stored array:
`{ product: new Product(item.productData), quantity: item.quantity }`.
A non-object element makes the JS callback throw (property access on a
non-record) and is an error here; the quantity is taken verbatim. -/
def decodeCartItem : Json → Except String CartItem
  | .obj fields => do
      let data ← decodeProductData (lookupField fields "productData")
      let quantity ← asNum (lookupField fields "quantity")
      pure { product := Product.ofData data, quantity := quantity }
  | _ => .error "cart item is not a record"

/-- Source `parsedData.map(...)`: element-wise decoding, first thrown error wins. -/
def decodeItems : List Json → Except String (List CartItem)
  | [] => .ok []
  | item :: rest => do
      let head ← decodeCartItem item
      let tail ← decodeItems rest
      pure (head :: tail)

/-- The body of `loadFromStorage`'s `try` block: a missing (falsy) slot leaves
the freshly initialized empty `items` in place; an unparseable string makes
`JSON.parse` throw; a parsed non-array value makes `parsedData.map` throw;
otherwise the array is decoded element-wise. -/
def Cart.loadData : StorageVal → Except String (List CartItem)
  | .absent => .ok []
  | .invalid => .error "JSON.parse failed"
  | .json (.arr elems) => decodeItems elems
  | .json _ => .error "parsedData.map is not a function"

/-- Source `Cart.loadFromStorage()` as run by the constructor: any exception from the
`try` block is caught, logged and replaced by `this.items = []`, so cart
construction is total. -/
def Cart.loadFromStorage (s : StorageVal) : List CartItem :=
  match Cart.loadData s with
  | .ok items => items
  | .error _ => []

/-! ## Catalog loader / pagination state (ProductUI in the main UI controller)

The controller's query fields (`currentSkip`, `limit`, `currentCategory`,
`currentSearch`) and the displayed grid are modelled explicitly; the remote
API is a parameter mapping a request to the product records it returns. -/

/-- The query-state fields of `ProductUI`. -/
structure CatalogState where
  currentSkip : ℕ
  limit : ℕ
  currentCategory : String
  currentSearch : String
deriving DecidableEq

/-- Field initializers: `currentSkip = 0`, `limit = 12`, both filters empty. -/
def CatalogState.init : CatalogState :=
  { currentSkip := 0, limit := 12, currentCategory := "", currentSearch := "" }

/-- Source `handleSearch()`: `currentSearch = searchInput.value.trim()`,
`currentSkip = 0`, `currentCategory = ""` (then `loadProducts(false)`). -/
def handleSearch (s : CatalogState) (input : String) : CatalogState :=
  { s with currentSearch := jsTrim input, currentSkip := 0, currentCategory := "" }

/-- Source `handleCategoryFilter()`: `currentCategory = categoryFilter.value`,
`currentSkip = 0`, `currentSearch = ""` (then `loadProducts(false)`). -/
def handleCategoryFilter (s : CatalogState) (value : String) : CatalogState :=
  { s with currentCategory := value, currentSkip := 0, currentSearch := "" }

/-- Source `handleLoadMore()`: `currentSkip += limit` (then `loadProducts(true)`). -/
def handleLoadMore (s : CatalogState) : CatalogState :=
  { s with currentSkip := s.currentSkip + s.limit }

/-- The request `loadProducts` issues for a given query state. -/
inductive Request where
  | search (q : String)
  | categoryList (category : String) (limit skip : ℕ)
  | plainList (limit skip : ℕ)
deriving DecidableEq

/-- Request selection in `loadProducts`: an active search short-circuits to
`ApiService.searchProducts(currentSearch)` — a URL carrying only `q`, no
`limit`/`skip`; otherwise the category or plain listing endpoint is hit
with `limit` and `skip` query parameters. -/
def loadRequest (s : CatalogState) : Request :=
  if s.currentSearch ≠ "" then .search s.currentSearch
  else if s.currentCategory ≠ "" then
    .categoryList s.currentCategory s.limit s.currentSkip
  else .plainList s.limit s.currentSkip

/-- Source `displayProducts(productsData, append)`: an empty result set replaces the
grid with a "No products found" message; otherwise results are appended to
(append mode) or replace (replace mode) the current grid. -/
def displayProducts (displayed results : List ProductData) (append : Bool) :
    List ProductData :=
  if results.isEmpty then []
  else (if append then displayed else []) ++ results

/-- Source `ProductUI` state relevant to loading: query fields plus the grid. -/
structure UIState where
  query : CatalogState
  displayed : List ProductData
deriving DecidableEq

/-- Source `loadProducts(append)` with the API modelled as a function from request to
returned records: issues `loadRequest` for the current query state and
merges the response into the grid. -/
def loadProducts (api : Request → List ProductData) (s : UIState)
    (append : Bool) : UIState :=
  { s with displayed := displayProducts s.displayed (api (loadRequest s.query)) append }

/-- Source `handleSearch` including its trailing `loadProducts(false)`. -/
def uiHandleSearch (api : Request → List ProductData) (s : UIState)
    (input : String) : UIState :=
  loadProducts api { s with query := handleSearch s.query input } false

/-- Source `handleCategoryFilter` including its trailing `loadProducts(false)`. -/
def uiHandleCategoryFilter (api : Request → List ProductData) (s : UIState)
    (value : String) : UIState :=
  loadProducts api { s with query := handleCategoryFilter s.query value } false

/-- Source `handleLoadMore` including its trailing `loadProducts(true)`. -/
def uiHandleLoadMore (api : Request → List ProductData) (s : UIState) : UIState :=
  loadProducts api { s with query := handleLoadMore s.query } true

/-- A user-initiated catalog action (search, category filter, or load-more). -/
inductive CatalogAction where
  | search (input : String)
  | filter (value : String)
  | loadMore

/-- Effect of one action on the query state. -/
def applyAction (s : CatalogState) : CatalogAction → CatalogState
  | .search input => handleSearch s input
  | .filter value => handleCategoryFilter s value
  | .loadMore => handleLoadMore s

/-- The §3 invariant: `searchTerm` and `categoryFilter` never both non-empty. -/
def mutuallyExclusive (s : CatalogState) : Prop :=
  s.currentSearch = "" ∨ s.currentCategory = ""

/-! ## Invariant predicates and sample values -/

/-- Every remaining line has a positive quantity. -/
def allPositive (items : List CartItem) : Prop :=
  ∀ i ∈ items, 0 < i.quantity

/-- At most one cart line per distinct product id. -/
def uniqueIds (items : List CartItem) : Prop :=
  (items.map (fun i => i.product.id)).Nodup

/-- Quantity of the first line matching a product id, 0 when none matches. -/
def lookupQty (items : List CartItem) (productId : ℚ) : ℚ :=
  ((items.find? (matchesId productId)).map (·.quantity)).getD 0

/-- A concrete catalog record, for instantiating the universally quantified
theorems at an explicit input. -/
def sampleData : ProductData :=
  { id := 1, title := "Phone", description := "A phone",
    category := "electronics", price := 100, discountPercentage := 10,
    rating := 4, stock := 5, brand := "Acme", thumbnail := "thumb.png",
    images := ["a.png"] }

/-- The product built from `sampleData`. -/
def sampleProduct : Product := Product.ofData sampleData

/-- A concrete API behaviour: every search returns one record, every other
request returns none. -/
def sampleApi : Request → List ProductData
  | .search _ => [sampleData]
  | _ => []

/-! ## Helper lemmas -/

theorem foldl_add_eq {α : Type} (f : α → ℚ) (l : List α) :
    ∀ init : ℚ, l.foldl (fun t i => t + f i) init = init + (l.map f).sum := by
  induction l with
  | nil => intro init; simp
  | cons x xs ih => intro init; simp [ih]; ring

theorem updateFirst_map {α β : Type} (p : α → Bool) (f : α → α) (g : α → β)
    (hg : ∀ x, g (f x) = g x) (l : List α) :
    (updateFirst p f l).map g = l.map g := by
  induction l with
  | nil => rfl
  | cons x xs ih =>
      by_cases h : p x <;> simp [updateFirst, h, hg, ih]

theorem mem_updateFirst {α : Type} {p : α → Bool} {f : α → α} {y : α}
    {l : List α} (hy : y ∈ updateFirst p f l) :
    y ∈ l ∨ ∃ x ∈ l, p x = true ∧ y = f x := by
  induction l with
  | nil => simp [updateFirst] at hy
  | cons x xs ih =>
      by_cases h : p x
      · simp [updateFirst, h] at hy
        rcases hy with hy | hy
        · exact Or.inr ⟨x, by simp, h, hy⟩
        · exact Or.inl (by simp [hy])
      · simp [updateFirst, h] at hy
        rcases hy with hy | hy
        · exact Or.inl (by simp [hy])
        · rcases ih hy with h' | ⟨z, hz, hpz, hyz⟩
          · exact Or.inl (by simp [h'])
          · exact Or.inr ⟨z, by simp [hz], hpz, hyz⟩

theorem find?_updateFirst {α : Type} (p : α → Bool) (f : α → α)
    (hf : ∀ x, p x = true → p (f x) = true) (l : List α) :
    (updateFirst p f l).find? p = (l.find? p).map f := by
  induction l with
  | nil => rfl
  | cons x xs ih =>
      by_cases h : p x
      · simp [updateFirst, h, List.find?_cons_of_pos, hf x h]
      · simp [updateFirst, h, List.find?_cons_of_neg, ih]

theorem decodeStrings_map_str (l : List String) :
    decodeStrings (l.map Json.str) = .ok l := by
  induction l with
  | nil => rfl
  | cons s rest ih => simp [decodeStrings, ih]

theorem decodeProductData_encode (p : Product) :
    decodeProductData (some (encodeProductData p)) = .ok (Product.toData p) := by
  simp [decodeProductData, encodeProductData, lookupField, List.find?,
    asNum, asStr, asStrList, decodeStrings_map_str, Product.toData]
  rfl

theorem decodeCartItem_encode (item : CartItem) :
    decodeCartItem (encodeCartItem item) =
      .ok { product := Product.ofData (Product.toData item.product),
            quantity := item.quantity } := by
  simp [decodeCartItem, encodeCartItem, lookupField, List.find?, asNum,
    decodeProductData_encode]
  rfl

theorem decodeItems_encode (items : List CartItem) :
    decodeItems (items.map encodeCartItem) =
      .ok (items.map fun item =>
        { product := Product.ofData (Product.toData item.product),
          quantity := item.quantity }) := by
  induction items with
  | nil => rfl
  | cons i rest ih => simp [decodeItems, decodeCartItem_encode, ih]; rfl

theorem ofData_toData_id (p : Product) :
    (Product.ofData (Product.toData p)).id = p.id := rfl

theorem ofData_toData_price (p : Product) :
    (Product.ofData (Product.toData p)).price = p.price := rfl

theorem getTotalSavings_eq_sum (items : List CartItem) :
    Cart.getTotalSavings items =
      (items.map fun i =>
        i.product.price * i.product.discountPercentage / 100 * i.quantity).sum := by
  simpa [Cart.getTotalSavings] using
    foldl_add_eq
      (fun i : CartItem =>
        i.product.price * i.product.discountPercentage / 100 * i.quantity)
      items 0

theorem getSubtotal_eq_sum (items : List CartItem) :
    Cart.getSubtotal items =
      (items.map fun i => i.product.getPriceWithDiscount * i.quantity).sum := by
  simpa [Cart.getSubtotal] using
    foldl_add_eq (fun i : CartItem => i.product.getPriceWithDiscount * i.quantity)
      items 0

/-! ## Claim theorems -/

/-- C1: for every cart, `getTotalSavings()` agrees algebraically with the sum
of the original prices times quantities minus `getSubtotal()`: the savings
formula computed from the price/discountPercentage pair equals the subtotal
formula computed via `getPriceWithDiscount`. -/
theorem savings_eq_price_sum_minus_subtotal (items : List CartItem) :
    Cart.getTotalSavings items =
      (items.map fun line => line.product.price * line.quantity).sum
        - Cart.getSubtotal items := by
  rw [getTotalSavings_eq_sum, getSubtotal_eq_sum]
  induction items with
  | nil => simp
  | cons x xs ih =>
      simp only [List.map_cons, List.sum_cons]
      rw [ih]
      simp only [Product.getPriceWithDiscount]
      ring

/-- C7: for every product with `price ≥ 0` and `0 ≤ discountPercentage ≤ 100`,
`calculateDiscount(price, discountPercentage) + getPriceWithDiscount()`
equals `price` exactly (exact rational arithmetic). -/
theorem discount_plus_discounted_eq_price (p : Product)
    (h1 : 0 ≤ p.price) (h2 : 0 ≤ p.discountPercentage)
    (h3 : p.discountPercentage ≤ 100) :
    calculateDiscount p.price p.discountPercentage + p.getPriceWithDiscount
      = p.price := by
  unfold calculateDiscount Product.getPriceWithDiscount
  ring

/-- Witness for C7 at the concrete `sampleProduct`. -/
theorem discount_plus_discounted_eq_price_witness :
    calculateDiscount sampleProduct.price sampleProduct.discountPercentage
      + sampleProduct.getPriceWithDiscount = sampleProduct.price :=
  discount_plus_discounted_eq_price sampleProduct (by decide) (by decide)
    (by decide)

/-- C8: `calculateTax` returns `price * 0.03` exactly when the category
compared case-insensitively equals "groceries" and `price * 0.0475`
otherwise; in particular `calculateTax(100, "groceries") == 3` and
`calculateTax(100, "Electronics") == 4.75`. -/
theorem calculateTax_two_tier (price : ℚ) (category : String) :
    (jsToLowerCase category = "groceries" →
      calculateTax price category = price * (3/100))
    ∧ (jsToLowerCase category ≠ "groceries" →
      calculateTax price category = price * (475/10000))
    ∧ calculateTax 100 "groceries" = 3
    ∧ calculateTax 100 "Electronics" = 4.75 := by
  have hg : jsToLowerCase "groceries" = "groceries" := by decide
  have he : jsToLowerCase "Electronics" = "electronics" := by decide
  refine ⟨fun h => ?_, fun h => ?_, ?_, ?_⟩
  · simp [calculateTax, h]
  · simp [calculateTax, h]
  · simp [calculateTax, hg]; norm_num
  · simp [calculateTax, he]; norm_num

/-- Witness for C8: the groceries branch taken at a concrete upper-case
category. -/
theorem calculateTax_two_tier_witness :
    calculateTax 100 "GROCERIES" = 100 * (3/100) :=
  (calculateTax_two_tier 100 "GROCERIES").1 (by decide)

/-- C3: round-trip persistence — serializing any cart with `saveToStorage` and
rehydrating a fresh cart from that slot yields the original line set by
product id and quantity, in the same order. -/
theorem saveLoad_roundTrip (items : List CartItem) :
    (Cart.loadFromStorage (Cart.saveToStorage items)).map
        (fun i => (i.product.id, i.quantity))
      = items.map (fun i => (i.product.id, i.quantity)) := by
  simp [Cart.loadFromStorage, Cart.saveToStorage, Cart.loadData,
    decodeItems_encode, List.map_map, Function.comp, ofData_toData_id]

/-- C4: cart construction is total for every storage-slot content — an absent
key yields an empty cart, an unparseable string yields an empty cart, and
every deserialization error is swallowed into an empty cart rather than
propagated. -/
theorem construction_never_throws :
    Cart.loadFromStorage .absent = []
    ∧ Cart.loadFromStorage .invalid = []
    ∧ ∀ (s : StorageVal) (e : String),
        Cart.loadData s = .error e → Cart.loadFromStorage s = [] := by
  refine ⟨rfl, rfl, fun s e h => ?_⟩
  simp [Cart.loadFromStorage, h]

/-- Witness for C4: a stored number is not an array, so the fresh cart is
empty rather than an exception. -/
theorem construction_never_throws_witness :
    Cart.loadFromStorage (.json (.num 5)) = [] :=
  construction_never_throws.2.2 (.json (.num 5))
    "parsedData.map is not a function" rfl

/-- C10: rehydration does not re-normalize quantities — a well-formed stored
record is decoded with its quantity verbatim, so a stored quantity ≤ 0
yields a freshly constructed cart violating the positive-quantity
invariant. -/
theorem rehydration_keeps_quantities (p : Product) (q : ℚ) :
    Cart.loadFromStorage
        (.json (.arr [encodeCartItem { product := p, quantity := q }]))
      = [{ product := Product.ofData (Product.toData p), quantity := q }]
    ∧ (q ≤ 0 →
        ¬ allPositive (Cart.loadFromStorage
          (.json (.arr [encodeCartItem { product := p, quantity := q }])))) := by
  have h1 : Cart.loadFromStorage
      (.json (.arr [encodeCartItem { product := p, quantity := q }]))
      = [{ product := Product.ofData (Product.toData p), quantity := q }] := by
    simp [Cart.loadFromStorage, Cart.loadData, decodeItems, decodeCartItem_encode]
    rfl
  refine ⟨h1, fun hq hall => ?_⟩
  have hmem : ({ product := Product.ofData (Product.toData p), quantity := q }
      : CartItem) ∈ Cart.loadFromStorage
        (.json (.arr [encodeCartItem { product := p, quantity := q }])) := by
    rw [h1]; exact List.mem_singleton.mpr rfl
  exact absurd (hall _ hmem) (not_lt.mpr hq)

/-- Witness for C10: a stored quantity of −1 survives rehydration and breaks
the invariant. -/
theorem rehydration_keeps_quantities_witness :
    Cart.loadFromStorage
        (.json (.arr [encodeCartItem { product := sampleProduct, quantity := -1 }]))
      = [{ product := Product.ofData (Product.toData sampleProduct), quantity := -1 }]
    ∧ ¬ allPositive (Cart.loadFromStorage
        (.json (.arr [encodeCartItem { product := sampleProduct, quantity := -1 }]))) :=
  ⟨(rehydration_keeps_quantities sampleProduct (-1)).1,
   (rehydration_keeps_quantities sampleProduct (-1)).2 (by norm_num)⟩

/-- C2 counterexample: `addItem` performs no quantity normalization — adding a
product with quantity −1 to an empty cart stores a line with quantity −1
instead of removing it, so a mutation can leave a non-positive quantity in
the cart. -/
theorem addItem_stores_nonpositive_quantity :
    Cart.addItem [] sampleProduct (-1)
      = [{ product := sampleProduct, quantity := -1 }]
    ∧ ¬ allPositive (Cart.addItem [] sampleProduct (-1)) := by
  constructor
  · simp [Cart.addItem]
  · intro hall
    have hmem : ({ product := sampleProduct, quantity := -1 } : CartItem)
        ∈ Cart.addItem [] sampleProduct (-1) := by
      simp [Cart.addItem]
    have := hall _ hmem
    norm_num at this

/-- C2 as amended: only `updateQuantity` normalizes — a write of quantity ≤ 0
through `updateQuantity` removes the line rather than storing it, and
`updateQuantity`, `removeItem`, `clear`, and `addItem` with a positive
quantity all preserve positivity of the remaining lines (while `addItem`
stores its quantity argument unchecked). -/
theorem updateQuantity_normalizes (items : List CartItem) (productId q : ℚ)
    (h : allPositive items) :
    allPositive (Cart.updateQuantity items productId q)
    ∧ (q ≤ 0 → ∀ i ∈ Cart.updateQuantity items productId q,
        i.product.id ≠ productId)
    ∧ allPositive (Cart.removeItem items productId)
    ∧ (∀ (P : Product) (q2 : ℚ), 0 < q2 →
        allPositive (Cart.addItem items P q2))
    ∧ allPositive Cart.clear := by
  have hremove : allPositive (Cart.removeItem items productId) := by
    intro i hi
    exact h i (List.mem_of_mem_filter hi)
  refine ⟨?_, ?_, hremove, ?_, ?_⟩
  · intro i hi
    unfold Cart.updateQuantity at hi
    by_cases hany : items.any (matchesId productId)
    · simp only [hany, if_true] at hi
      by_cases hq : q ≤ 0
      · simp only [hq, if_true] at hi
        exact hremove i hi
      · simp only [hq, if_false] at hi
        rcases mem_updateFirst hi with hmem | ⟨x, _, _, hx⟩
        · exact h i hmem
        · rw [hx]
          exact lt_of_not_le hq
    · simp only [hany, if_false] at hi
      exact h i hi
  · intro hq i hi
    unfold Cart.updateQuantity at hi
    by_cases hany : items.any (matchesId productId)
    · simp only [hany, if_true, hq, if_true] at hi
      unfold Cart.removeItem at hi
      rcases List.mem_filter.mp hi with ⟨_, hmatch⟩
      simpa [matchesId] using hmatch
    · simp only [hany, if_false] at hi
      have := List.any_eq_false.mp (Bool.not_eq_true _ ▸ hany) i hi
      simpa [matchesId] using this
  · intro P q2 hq2 i hi
    unfold Cart.addItem at hi
    by_cases hany : items.any (matchesId P.id)
    · simp only [hany, if_true] at hi
      rcases mem_updateFirst hi with hmem | ⟨x, hx, _, hix⟩
      · exact h i hmem
      · rw [hix]
        exact add_pos (h x hx) hq2
    · simp only [hany, if_false] at hi
      rcases List.mem_append.mp hi with hmem | hmem
      · exact h i hmem
      · rw [List.mem_singleton.mp hmem]
        exact hq2
  · intro i hi
    simp [Cart.clear] at hi

/-- Witness for the amended C2 at a concrete one-line cart. -/
theorem updateQuantity_normalizes_witness :
    allPositive (Cart.updateQuantity [{ product := sampleProduct, quantity := 2 }] 1 0)
    ∧ (0 ≤ (0:ℚ) → ∀ i ∈ Cart.updateQuantity
        [{ product := sampleProduct, quantity := 2 }] 1 0, i.product.id ≠ 1)
    ∧ allPositive (Cart.removeItem [{ product := sampleProduct, quantity := 2 }] 1)
    ∧ (∀ (P : Product) (q2 : ℚ), 0 < q2 →
        allPositive (Cart.addItem [{ product := sampleProduct, quantity := 2 }] P q2))
    ∧ allPositive Cart.clear := by
  have := updateQuantity_normalizes [{ product := sampleProduct, quantity := 2 }]
    1 0 (by intro i hi; simp [List.mem_singleton.mp hi])
  exact ⟨this.1, fun _ => this.2.1 (by norm_num), this.2.2.1, this.2.2.2.1,
    this.2.2.2.2⟩

/-- C5: `addItem` merges by product id — it increments the first existing line
with the product's id by the given quantity and appends a new line only
when no line matches, so two adds of the same product fuse into one line
with the summed quantity, and every mutating operation preserves the
at-most-one-line-per-product-id invariant. -/
theorem addItem_merges_by_id (items : List CartItem) (P : Product) (q : ℚ)
    (h : uniqueIds items) :
    uniqueIds (Cart.addItem items P q)
    ∧ lookupQty (Cart.addItem items P q) P.id = lookupQty items P.id + q
    ∧ ((∀ i ∈ items, i.product.id ≠ P.id) →
        Cart.addItem items P q = items ++ [{ product := P, quantity := q }])
    ∧ Cart.addItem (Cart.addItem [] P 2) P 3 = [{ product := P, quantity := 5 }]
    ∧ (∀ pid q2 : ℚ, uniqueIds (Cart.removeItem items pid)
        ∧ uniqueIds (Cart.updateQuantity items pid q2))
    ∧ uniqueIds Cart.clear := by
  have hremove : ∀ pid : ℚ, uniqueIds (Cart.removeItem items pid) := by
    intro pid
    exact List.Nodup.sublist (List.Sublist.map _ (List.filter_sublist _)) h
  have hUpdMap : ∀ (f : CartItem → CartItem), (∀ x, (f x).product = x.product) →
      ∀ pid : ℚ, uniqueIds (updateFirst (matchesId pid) f items) := by
    intro f hf pid
    unfold uniqueIds
    rw [updateFirst_map (matchesId pid) f (fun i => i.product.id)
      (fun x => by simp only [hf]) items]
    exact h
  have haddT : items.any (matchesId P.id) = true →
      Cart.addItem items P q = updateFirst (matchesId P.id)
        (fun item => { item with quantity := item.quantity + q }) items := by
    intro hb
    unfold Cart.addItem
    rw [hb]
    simp
  have haddF : items.any (matchesId P.id) = false →
      Cart.addItem items P q = items ++ [{ product := P, quantity := q }] := by
    intro hb
    unfold Cart.addItem
    rw [hb]
    simp
  have hadd : uniqueIds (Cart.addItem items P q) := by
    cases hb : items.any (matchesId P.id) with
    | true =>
        rw [haddT hb]
        exact hUpdMap (fun item => { item with quantity := item.quantity + q })
          (fun x => rfl) P.id
    | false =>
        rw [haddF hb]
        have hno : P.id ∉ items.map fun i => i.product.id := by
          intro hmem
          rcases List.mem_map.mp hmem with ⟨x, hx, hid⟩
          have hfalse := List.any_eq_false.mp hb x hx
          simp [matchesId, hid] at hfalse
        unfold uniqueIds
        rw [List.map_append, List.nodup_append]
        refine ⟨h, by simp, ?_⟩
        intro a ha hb'
        simp only [List.map_cons, List.map_nil, List.mem_singleton] at hb'
        exact hno (hb' ▸ ha)
  have hlookup : lookupQty (Cart.addItem items P q) P.id
      = lookupQty items P.id + q := by
    cases hb : items.any (matchesId P.id) with
    | true =>
        have hfind := find?_updateFirst (matchesId P.id)
          (fun item => { item with quantity := item.quantity + q })
          (fun x hx => hx) items
        have hsome : (items.find? (matchesId P.id)).isSome := by
          rw [List.find?_isSome]
          simpa [List.any_eq_true] using hb
        obtain ⟨x, hx⟩ := Option.isSome_iff_exists.mp hsome
        rw [haddT hb]
        unfold lookupQty
        rw [hfind, hx]
        simp
    | false =>
        have hfindnone : items.find? (matchesId P.id) = none := by
          rw [List.find?_eq_none]
          intro x hx
          exact List.any_eq_false.mp hb x hx
        rw [haddF hb]
        unfold lookupQty
        rw [List.find?_append, hfindnone]
        simp [matchesId]
  have hinsert : (∀ i ∈ items, i.product.id ≠ P.id) →
      Cart.addItem items P q = items ++ [{ product := P, quantity := q }] := by
    intro hno
    refine haddF ?_
    rw [List.any_eq_false]
    intro x hx
    simp [matchesId, hno x hx]
  have hdouble : Cart.addItem (Cart.addItem [] P 2) P 3
      = [{ product := P, quantity := 5 }] := by
    have step1 : Cart.addItem [] P 2 = [{ product := P, quantity := 2 }] := by
      simp [Cart.addItem]
    rw [step1]
    have htrue : ([{ product := P, quantity := (2:ℚ) }] :
        List CartItem).any (matchesId P.id) = true := by
      simp [matchesId]
    unfold Cart.addItem
    rw [htrue]
    simp [updateFirst, matchesId]
    norm_num
  have hupd : ∀ pid q2 : ℚ, uniqueIds (Cart.updateQuantity items pid q2) := by
    intro pid q2
    cases hb : items.any (matchesId pid) with
    | true =>
        by_cases hq2 : q2 ≤ 0
        · have : Cart.updateQuantity items pid q2 = Cart.removeItem items pid := by
            unfold Cart.updateQuantity
            rw [hb]
            simp [hq2]
          rw [this]
          exact hremove pid
        · have : Cart.updateQuantity items pid q2 = updateFirst (matchesId pid)
              (fun item => { item with quantity := q2 }) items := by
            unfold Cart.updateQuantity
            rw [hb]
            simp [hq2]
          rw [this]
          exact hUpdMap (fun item => { item with quantity := q2 })
            (fun x => rfl) pid
    | false =>
        have : Cart.updateQuantity items pid q2 = items := by
          unfold Cart.updateQuantity
          rw [hb]
          simp
        rw [this]
        exact h
  exact ⟨hadd, hlookup, hinsert, hdouble,
    fun pid q2 => ⟨hremove pid, hupd pid q2⟩, by simp [uniqueIds, Cart.clear]⟩

/-- Witness for C5 on the empty cart and `sampleProduct`. -/
theorem addItem_merges_by_id_witness :
    uniqueIds (Cart.addItem [] sampleProduct 1)
    ∧ lookupQty (Cart.addItem [] sampleProduct 1) sampleProduct.id
        = lookupQty [] sampleProduct.id + 1
    ∧ ((∀ i ∈ ([] : List CartItem), i.product.id ≠ sampleProduct.id) →
        Cart.addItem [] sampleProduct 1
          = [] ++ [{ product := sampleProduct, quantity := 1 }])
    ∧ Cart.addItem (Cart.addItem [] sampleProduct 2) sampleProduct 3
        = [{ product := sampleProduct, quantity := 5 }]
    ∧ (∀ pid q2 : ℚ, uniqueIds (Cart.removeItem [] pid)
        ∧ uniqueIds (Cart.updateQuantity [] pid q2))
    ∧ uniqueIds Cart.clear :=
  addItem_merges_by_id [] sampleProduct 1 (by simp [uniqueIds])

/-- C6: the catalog query state keeps `searchTerm` and `categoryFilter`
mutually exclusive — a search sets the (trimmed) term, clears the category
and resets the offset; a filter sets the category, clears the term and
resets the offset; hence after any sequence of search/filter/load-more
actions at most one of the two is non-empty. -/
theorem search_filter_mutually_exclusive :
    (∀ acts : List CatalogAction,
      mutuallyExclusive (acts.foldl applyAction CatalogState.init))
    ∧ (∀ (s : CatalogState) (input : String),
        (handleSearch s input).currentSearch = jsTrim input
        ∧ (handleSearch s input).currentCategory = ""
        ∧ (handleSearch s input).currentSkip = 0)
    ∧ (∀ (s : CatalogState) (value : String),
        (handleCategoryFilter s value).currentCategory = value
        ∧ (handleCategoryFilter s value).currentSearch = ""
        ∧ (handleCategoryFilter s value).currentSkip = 0) := by
  refine ⟨?_, fun s input => ⟨rfl, rfl, rfl⟩, fun s value => ⟨rfl, rfl, rfl⟩⟩
  have hstep : ∀ (s : CatalogState) (a : CatalogAction),
      mutuallyExclusive s → mutuallyExclusive (applyAction s a) := by
    intro s a hs
    cases a with
    | search input => exact Or.inr rfl
    | filter value => exact Or.inl rfl
    | loadMore => exact hs
  have hfold : ∀ (acts : List CatalogAction) (s : CatalogState),
      mutuallyExclusive s → mutuallyExclusive (acts.foldl applyAction s) := by
    intro acts
    induction acts with
    | nil => exact fun s hs => hs
    | cons a rest ih => exact fun s hs => ih _ (hstep s a hs)
  exact fun acts => hfold acts CatalogState.init (Or.inl rfl)

/-- C9: with an active search, load-more increments the page offset but the
issued request is still the parameterless search request — independent of
the offset — so the same result set already displayed is appended again,
duplicated, instead of a next page. -/
theorem loadMore_during_search_duplicates (api : Request → List ProductData)
    (s : UIState) (input : String) (hq : jsTrim input ≠ "") :
    loadRequest (uiHandleSearch api s input).query = Request.search (jsTrim input)
    ∧ loadRequest (handleLoadMore (uiHandleSearch api s input).query)
        = Request.search (jsTrim input)
    ∧ (uiHandleLoadMore api (uiHandleSearch api s input)).query.currentSkip
        = (uiHandleSearch api s input).query.currentSkip
          + (uiHandleSearch api s input).query.limit
    ∧ (api (Request.search (jsTrim input)) ≠ [] →
        (uiHandleLoadMore api (uiHandleSearch api s input)).displayed
          = api (Request.search (jsTrim input))
            ++ api (Request.search (jsTrim input))) := by
  have hreq : loadRequest (handleSearch s.query input) = .search (jsTrim input) := by
    unfold loadRequest handleSearch
    simp [hq]
  have hreq2 : loadRequest (handleLoadMore (handleSearch s.query input))
      = .search (jsTrim input) := by
    unfold loadRequest handleLoadMore handleSearch
    simp [hq]
  refine ⟨?_, ?_, rfl, fun hne => ?_⟩
  · simpa [uiHandleSearch, loadProducts] using hreq
  · simpa [uiHandleSearch, loadProducts] using hreq2
  · have hdisp1 : (uiHandleSearch api s input).displayed
        = api (Request.search (jsTrim input)) := by
      simp [uiHandleSearch, loadProducts, displayProducts, hreq,
        List.isEmpty_iff, hne]
    simp [uiHandleLoadMore, loadProducts, displayProducts, uiHandleSearch,
      hreq2, List.isEmpty_iff, hne, hreq, hdisp1]

/-- Witness for C9: a concrete search for "phone" against `sampleApi`,
followed by a load-more, duplicates the single result. -/
theorem loadMore_during_search_duplicates_witness :
    loadRequest (uiHandleSearch sampleApi ⟨CatalogState.init, []⟩ "phone").query
      = Request.search (jsTrim "phone")
    ∧ loadRequest (handleLoadMore
        (uiHandleSearch sampleApi ⟨CatalogState.init, []⟩ "phone").query)
      = Request.search (jsTrim "phone")
    ∧ (uiHandleLoadMore sampleApi
        (uiHandleSearch sampleApi ⟨CatalogState.init, []⟩ "phone")).query.currentSkip
      = (uiHandleSearch sampleApi ⟨CatalogState.init, []⟩ "phone").query.currentSkip
        + (uiHandleSearch sampleApi ⟨CatalogState.init, []⟩ "phone").query.limit
    ∧ (sampleApi (Request.search (jsTrim "phone")) ≠ [] →
        (uiHandleLoadMore sampleApi
          (uiHandleSearch sampleApi ⟨CatalogState.init, []⟩ "phone")).displayed
        = sampleApi (Request.search (jsTrim "phone"))
          ++ sampleApi (Request.search (jsTrim "phone"))) :=
  loadMore_during_search_duplicates sampleApi ⟨CatalogState.init, []⟩ "phone"
    (by decide)

end ECommerce
